import Mathlib

/-!
Verification of the MovieCamera plugin (src/MovieCamera.cpp) against its
natural-language specification.

The development is a shallow embedding of the plugin's camera engine:

* pure math helpers (NormalizeAngle, LerpAngle, EaseInCubic, LinearDrift)
  are embedded over the rationals, float arithmetic idealized as exact
  field arithmetic;
* the world-space geometry pipeline (TransformToWorldCoordinates,
  EnsureAboveGround, ValidateCameraPosition) is embedded over the reals,
  since it uses trigonometric functions and square roots;
* the stateful engine (the globals g_functionActive, g_inTransition,
  g_mouseIdleTime, ... together with SelectNextShot, StartCameraControl,
  PauseCameraControl, ResumeCameraControl, CheckAutoConditions and
  FlightLoopCallback) is embedded as pure transition functions on an
  explicit state record MCState.  Host-side readings (datarefs, mouse
  location, the camera read-back) are supplied through a HostInputs record,
  and calls of the C runtime function rand() are supplied through a
  RandDraws record (one entry per rand() call; rand()/RAND_MAX is supplied
  as a rational-valued draw in the unit interval).  Host side effects that
  leave no trace in the plugin state (debug strings, menu updates, the
  XPLMControlCamera registration itself, FOV writes) are not modelled.
* the custom-path component is not present in the repository sources and is
  modelled from the specification text (namespace PathModel below).

The do-while index re-draw loop of SelectNextShot consumes one entry of the
supplied draw list per iteration and returns none when the list is
exhausted, so that non-termination of the source loop (only possible when
every draw repeats the previous index) is represented by the none result.
-/

/-! ## Angle normalization loops

NormalizeAngle (MovieCamera.cpp lines 1017-1021) runs two while loops:
first subtract 360 while the angle exceeds 180, then add 360 while the
angle is below -180.  Each loop is embedded as a recursive function; they
are stated over a general linear ordered field with a floor so that the
same loops serve the rational model of the plugin's float math and the
real-valued path model. -/

/-- First while loop of NormalizeAngle: while (angle > 180) angle -= 360. -/
def angleLoopDown {K : Type} [LinearOrderedField K] [FloorRing K] (a : K) : K :=
  if 180 < a then angleLoopDown (a - 360) else a
termination_by (⌈(a - 180) / 360⌉).natAbs
decreasing_by
  have hpos : (0 : K) < (a - 180) / 360 := div_pos (by linarith) (by norm_num)
  have hc : 0 < ⌈(a - 180) / 360⌉ := Int.ceil_pos.mpr hpos
  have heq : (a - 360 - 180) / 360 = (a - 180) / 360 - 1 := by ring
  rw [heq, Int.ceil_sub_one]
  omega

/-- Second while loop of NormalizeAngle: while (angle < -180) angle += 360. -/
def angleLoopUp {K : Type} [LinearOrderedField K] [FloorRing K] (a : K) : K :=
  if a < -180 then angleLoopUp (a + 360) else a
termination_by (⌊(a + 180) / 360⌋).natAbs
decreasing_by
  have hneg : (a + 180) / 360 < 0 := div_neg_of_neg_of_pos (by linarith) (by norm_num)
  have hf : ⌊(a + 180) / 360⌋ < 0 := Int.floor_lt.mpr (by exact_mod_cast hneg)
  have heq : (a + 360 + 180) / 360 = (a + 180) / 360 + 1 := by ring
  rw [heq, Int.floor_add_one]
  omega

/-! ## Pure math helpers of the plugin, over the rationals -/

/-- NormalizeAngle (lines 1017-1021): the two while loops in source order. -/
def NormalizeAngle (angle : ℚ) : ℚ := angleLoopUp (angleLoopDown angle)

/-- LerpAngle (lines 1026-1029): interpolate angles through the normalized
difference. -/
def LerpAngle (a b t : ℚ) : ℚ := a + NormalizeAngle (b - a) * t

/-- EaseInCubic (lines 1035-1037). -/
def EaseInCubic (t : ℚ) : ℚ := t * t * t

/-- The constant EASE_IN_DURATION_RATIO = 0.3f (line 119), the fraction of
a shot spent in the ease-in phase of LinearDrift. -/
def easeInDurationRatio : ℚ := 3 / 10

/-- LinearDrift (lines 1045-1066): cubic ease-in for the first 30 percent
of the shot, then constant-slope linear progression, the blend factor
clamped at 1 before scaling the drift amount. -/
def LinearDrift (baseValue driftAmount normalizedTime : ℚ) : ℚ :=
  let smoothT :=
    if normalizedTime < easeInDurationRatio then
      EaseInCubic (normalizedTime / easeInDurationRatio) * easeInDurationRatio
    else
      easeInDurationRatio + 3 * easeInDurationRatio * (normalizedTime - easeInDurationRatio)
  let clamped := min smoothT 1
  baseValue + driftAmount * clamped

/-! ## Shot and state data -/

/-- The CameraType enum (lines 73-76). -/
inductive CameraType where
  | Cockpit
  | External
deriving DecidableEq

/-- The PluginMode enum (lines 67-71). -/
inductive PluginMode where
  | Off
  | Manual
  | Auto
deriving DecidableEq

/-- The CameraShot struct (lines 78-90), float fields idealized as reals. -/
structure CameraShot where
  type : CameraType
  x : ℝ
  y : ℝ
  z : ℝ
  pitch : ℝ
  heading : ℝ
  roll : ℝ
  zoom : ℝ
  duration : ℝ
  name : String
  driftX : ℝ
  driftY : ℝ
  driftZ : ℝ
  driftPitch : ℝ
  driftHeading : ℝ
  driftRoll : ℝ
  driftZoom : ℝ

/-- The XPLMCameraPosition_t record as the plugin uses it: world position,
attitude and zoom. -/
structure CameraPose where
  x : ℝ
  y : ℝ
  z : ℝ
  pitch : ℝ
  heading : ℝ
  roll : ℝ
  zoom : ℝ

/-! ## World-space geometry, over the reals -/

/-- The constant MIN_CAMERA_HEIGHT_ABOVE_GROUND = 2.0f (line 116). -/
def MIN_CAMERA_HEIGHT_ABOVE_GROUND : ℝ := 2

/-- The constant MIN_CAMERA_DISTANCE_FROM_AIRCRAFT = 5.0f (line 117). -/
def MIN_CAMERA_DISTANCE_FROM_AIRCRAFT : ℝ := 5

/-- TransformToWorldCoordinates (lines 966-1005): rotate an aircraft-local
offset by heading, then pitch, then roll, and add the aircraft position.
The float constant PI is idealized as the exact real pi. -/
noncomputable def TransformToWorldCoordinates
    (localX localY localZ acfX acfY acfZ heading pitch roll : ℝ) : ℝ × ℝ × ℝ :=
  let h := heading * Real.pi / 180
  let p := pitch * Real.pi / 180
  let r := roll * Real.pi / 180
  let cosH := Real.cos h
  let sinH := Real.sin h
  let cosP := Real.cos p
  let sinP := Real.sin p
  let cosR := Real.cos r
  let sinR := Real.sin r
  let x1 := localX * cosH - localZ * sinH
  let y1 := localY
  let z1 := localX * sinH + localZ * cosH
  let x2 := x1
  let y2 := y1 * cosP + z1 * sinP
  let z2 := -y1 * sinP + z1 * cosP
  let x3 := x2 * cosR - y2 * sinR
  let y3 := x2 * sinR + y2 * cosR
  let z3 := z2
  (acfX + x3, acfY + y3, acfZ + z3)

/-- EnsureAboveGround (lines 1082-1101) in the branch where both terrain
datarefs are available: terrain height is the aircraft's local y minus its
height above ground, and the camera y is clamped to terrain plus the
minimum clearance. -/
noncomputable def EnsureAboveGround (aircraftY agl cameraY : ℝ) : ℝ :=
  let terrainY := aircraftY - agl
  let minCameraY := terrainY + MIN_CAMERA_HEIGHT_ABOVE_GROUND
  max cameraY minCameraY

/-- CalculateMinVisibleDistance (lines 592-598), with the aircraft
dimensions passed explicitly in place of the globals. -/
noncomputable def CalculateMinVisibleDistance (wingspan fuselageLength : ℝ) : ℝ :=
  let maxDimension := max wingspan fuselageLength
  max (maxDimension * (3 / 2)) MIN_CAMERA_DISTANCE_FROM_AIRCRAFT

/-- ValidateCameraPosition (lines 1110-1131): for external shots, when the
camera sits closer to the aircraft than the minimum visible distance (and
farther than 0.001), scale its offset outward to that minimum distance. -/
noncomputable def ValidateCameraPosition
    (worldCamX worldCamY worldCamZ acfX acfY acfZ : ℝ) (ty : CameraType)
    (wingspan fuselageLength : ℝ) : ℝ × ℝ × ℝ :=
  if ty = CameraType.Cockpit then (worldCamX, worldCamY, worldCamZ)
  else
    let dx := worldCamX - acfX
    let dy := worldCamY - acfY
    let dz := worldCamZ - acfZ
    let distance := Real.sqrt (dx * dx + dy * dy + dz * dz)
    let minDistance := CalculateMinVisibleDistance wingspan fuselageLength
    if distance < minDistance ∧ distance > 1 / 1000 then
      let scaleFactor := minDistance / distance
      (acfX + dx * scaleFactor, acfY + dy * scaleFactor, acfZ + dz * scaleFactor)
    else (worldCamX, worldCamY, worldCamZ)

/-- The external-shot world position pipeline of CameraControlCallback
(lines 1614-1627): full-attitude transform, then the ground clamp, then
the minimum-visible-distance validation, in source order. -/
noncomputable def ExternalShotWorldPosition
    (driftedX driftedY driftedZ acfX acfY acfZ acfHeading acfPitch acfRoll
     aircraftAgl wingspan fuselageLength : ℝ) : ℝ × ℝ × ℝ :=
  let w := TransformToWorldCoordinates driftedX driftedY driftedZ
    acfX acfY acfZ acfHeading acfPitch acfRoll
  let clampedY := EnsureAboveGround acfY aircraftAgl w.2.1
  ValidateCameraPosition w.1 clampedY w.2.2 acfX acfY acfZ CameraType.External
    wingspan fuselageLength

/-! ## The stateful engine -/

/-- The plugin's mutable globals that the flight loop reads and writes
(lines 153-182 and 248-249), gathered into one state record, together with
the aircraft dimension fields the target computation uses. -/
structure MCState where
  pluginMode : PluginMode
  functionActive : Bool
  functionPaused : Bool
  delaySeconds : ℝ
  autoAltFt : ℝ
  shotMinDuration : ℝ
  shotMaxDuration : ℝ
  lastMouseX : Int
  lastMouseY : Int
  mouseIdleTime : ℝ
  currentShotTime : ℝ
  shotElapsedTime : ℝ
  currentShotIndex : Int
  consecutiveSameTypeCount : Nat
  lastShotType : CameraType
  currentShot : CameraShot
  transitionProgress : ℝ
  transitionDuration : ℝ
  startPos : CameraPose
  targetPos : CameraPose
  inTransition : Bool
  cockpitShots : List CameraShot
  externalShots : List CameraShot
  pilotEyeX : ℝ
  pilotEyeY : ℝ
  pilotEyeZ : ℝ

/-- Host-side readings consumed during one flight-loop tick: the mouse
location, the elapsed time since the last call, the telemetry datarefs and
the camera pose read back by XPLMReadCameraPosition. -/
structure HostInputs where
  mouseX : Int
  mouseY : Int
  dt : ℝ
  onGround : Bool
  groundSpeed : ℝ
  elevationM : ℝ
  acfX : ℝ
  acfY : ℝ
  acfZ : ℝ
  acfHeading : ℝ
  cameraPos : CameraPose

/-- The rand() calls one tick may consume: the draw deciding the shot type
(rand() % 2), the successive draws of the index re-draw loop, and the
duration draw rand()/RAND_MAX supplied as a rational value of the unit
interval; startTypeDraw feeds the extra rand() % 2 of StartCameraControl. -/
structure RandDraws where
  startTypeDraw : Nat
  typeDraw : Nat
  idxDraws : List Nat
  durDraw : ℝ

/-- The fallback shot returned by SelectNextShot when the chosen list is
empty (lines 1369-1373). -/
def defaultShot : CameraShot :=
  { type := CameraType.Cockpit, x := 0, y := 0, z := 0, pitch := 0, heading := 0,
    roll := 0, zoom := 1, duration := 4, name := "Default",
    driftX := 0, driftY := 0, driftZ := 0, driftPitch := 0, driftHeading := 0,
    driftRoll := 0, driftZoom := 0 }

/-- The do-while re-draw loop of SelectNextShot (lines 1375-1378): draw an
index, and draw again while it equals the previous index and the list has
more than one entry.  Each iteration consumes one supplied draw; none is
returned when the draws run out. -/
def drawIndexLoop : List Nat → Int → Nat → Option Nat
  | [], _, _ => none
  | d :: rest, prev, size =>
    let newIndex := d % size
    if (newIndex : Int) = prev ∧ size > 1 then drawIndexLoop rest prev size
    else some newIndex

/-- The shot type SelectNextShot settles on (lines 1341-1351): a random
type when three or more consecutive shots of one type have played,
otherwise the previous type. -/
def selectNextType (s : MCState) (r : RandDraws) : CameraType :=
  let canSwitchType := s.consecutiveSameTypeCount ≥ 3
  if canSwitchType then
    if r.typeDraw % 2 = 0 then CameraType.Cockpit else CameraType.External
  else s.lastShotType

/-- The shot list SelectNextShot draws from (lines 1353-1358). -/
def selectShotList (s : MCState) (r : RandDraws) : List CameraShot :=
  if selectNextType s r = CameraType.Cockpit then s.cockpitShots else s.externalShots

/-- SelectNextShot (lines 1339-1391): settle the type, update the
consecutive-type tracking, fall back to the default shot on an empty list,
otherwise re-draw an index avoiding the previous one, randomize the
duration and store the running shot with its elapsed time reset. -/
noncomputable def SelectNextShot (s : MCState) (r : RandDraws) :
    Option (CameraShot × MCState) :=
  let nextType := selectNextType s r
  let shotList := selectShotList s r
  let s1 :=
    if nextType ≠ s.lastShotType then
      { s with consecutiveSameTypeCount := 1, lastShotType := nextType }
    else
      { s with consecutiveSameTypeCount := s.consecutiveSameTypeCount + 1 }
  if shotList.isEmpty then some (defaultShot, s1)
  else
    match drawIndexLoop r.idxDraws s1.currentShotIndex shotList.length with
    | none => none
    | some newIndex =>
      let shotTemplate := shotList.getD newIndex defaultShot
      let shot := { shotTemplate with
        duration := s1.shotMinDuration + r.durDraw * (s1.shotMaxDuration - s1.shotMinDuration) }
      some (shot, { s1 with
        currentShotIndex := (newIndex : Int),
        currentShot := shot,
        shotElapsedTime := 0 })

/-- CheckAutoConditions (lines 1396-1419) in the branch where the three
datarefs are available: on ground and slower than 1 m/s, or airborne above
the configured altitude with the mouse idle for the configured delay. -/
noncomputable def CheckAutoConditions
    (onGround : Bool) (groundSpeed elevationM mouseIdleTime delaySeconds autoAltFt : ℝ) :
    Bool :=
  let altitudeFt := elevationM * (328084 / 100000)
  if onGround = true ∧ groundSpeed < 1 then true
  else if onGround = false ∧ altitudeFt > autoAltFt ∧ mouseIdleTime ≥ delaySeconds then true
  else false

/-- The target-pose computation duplicated in StartCameraControl (lines
1444-1470) and in the flight loop's shot-expiry branch (lines 1726-1752):
a heading-only rotation of the shot offset (with the pilot-eye offset
added for cockpit shots) about the aircraft position. -/
noncomputable def ComputeShotTargetPos (shot : CameraShot)
    (pilotEyeX pilotEyeY pilotEyeZ acfX acfY acfZ acfHeading : ℝ) : CameraPose :=
  let rad := acfHeading * Real.pi / 180
  let cosH := Real.cos rad
  let sinH := Real.sin rad
  let shotX := if shot.type = CameraType.Cockpit then shot.x + pilotEyeX else shot.x
  let shotY := if shot.type = CameraType.Cockpit then shot.y + pilotEyeY else shot.y
  let shotZ := if shot.type = CameraType.Cockpit then shot.z + pilotEyeZ else shot.z
  { x := acfX + shotX * cosH - shotZ * sinH
    y := acfY + shotY
    z := acfZ + shotX * sinH + shotZ * cosH
    pitch := shot.pitch
    heading := acfHeading + shot.heading
    roll := shot.roll
    zoom := shot.zoom }

/-- StartCameraControl (lines 1424-1496): reset the shot-rotation state,
draw a random starting type, select the first shot, capture the host
camera pose as the start pose, compute the target pose and set the shot
timer; the camera switch is instant (g_inTransition stays false).  The
host calls (saving camera effects, taking camera control) are effects
outside the modelled state. -/
noncomputable def StartCameraControl (s : MCState) (inp : HostInputs) (r : RandDraws) :
    Option MCState :=
  if s.functionActive then some s
  else
    let s1 := { s with
      functionActive := true
      functionPaused := false
      currentShotTime := 0
      shotElapsedTime := 0
      currentShotIndex := -1
      consecutiveSameTypeCount := 0
      inTransition := false
      lastShotType :=
        if r.startTypeDraw % 2 = 0 then CameraType.Cockpit else CameraType.External }
    match SelectNextShot s1 r with
    | none => none
    | some (firstShot, s2) =>
      some { s2 with
        startPos := inp.cameraPos
        targetPos := ComputeShotTargetPos firstShot s2.pilotEyeX s2.pilotEyeY s2.pilotEyeZ
          inp.acfX inp.acfY inp.acfZ inp.acfHeading
        inTransition := false
        transitionProgress := 0
        currentShotTime := firstShot.duration }

/-- StopCameraControl (lines 1501-1514): clear the active and paused
flags; the camera release and effect restoration are host effects. -/
def StopCameraControl (s : MCState) : MCState :=
  if s.functionActive = false then s
  else { s with functionActive := false, functionPaused := false }

/-- PauseCameraControl (lines 1519-1528): set the paused flag when active
and not already paused; the camera release is a host effect. -/
def PauseCameraControl (s : MCState) : MCState :=
  if s.functionActive = false ∨ s.functionPaused = true then s
  else { s with functionPaused := true }

/-- ResumeCameraControl (lines 1533-1542): clear the paused flag when
active and paused; retaking camera control is a host effect. -/
def ResumeCameraControl (s : MCState) : MCState :=
  if s.functionActive = false ∨ s.functionPaused = false then s
  else { s with functionPaused := false }

/-- The mouse section of FlightLoopCallback (lines 1665-1684): detect
movement against the remembered location, reset or accumulate the idle
time, and pause the active camera on movement. -/
noncomputable def flightLoopMouse (s : MCState) (inp : HostInputs) : MCState :=
  let mouseMoved := inp.mouseX ≠ s.lastMouseX ∨ inp.mouseY ≠ s.lastMouseY
  let s1 := { s with lastMouseX := inp.mouseX, lastMouseY := inp.mouseY }
  if mouseMoved then
    let s2 := { s1 with mouseIdleTime := 0 }
    if s2.functionActive = true ∧ s2.functionPaused = false then PauseCameraControl s2
    else s2
  else { s1 with mouseIdleTime := s1.mouseIdleTime + inp.dt }

/-- The mode section of FlightLoopCallback (lines 1686-1703): in Auto
mode start, stop or resume from the auto conditions; in Manual mode
resume a paused camera after the idle delay. -/
noncomputable def flightLoopAuto (s : MCState) (inp : HostInputs) (r : RandDraws) :
    Option MCState :=
  if s.pluginMode = PluginMode.Auto then
    let conditionsMet := CheckAutoConditions inp.onGround inp.groundSpeed inp.elevationM
      s.mouseIdleTime s.delaySeconds s.autoAltFt
    if conditionsMet = true ∧ s.functionActive = false then StartCameraControl s inp r
    else if conditionsMet = false ∧ s.functionActive = true then some (StopCameraControl s)
    else if s.functionActive = true ∧ s.functionPaused = true ∧
        s.mouseIdleTime ≥ s.delaySeconds then some (ResumeCameraControl s)
    else some s
  else if s.pluginMode = PluginMode.Manual ∧ s.functionActive = true ∧
      s.functionPaused = true then
    if s.mouseIdleTime ≥ s.delaySeconds then some (ResumeCameraControl s)
    else some s
  else some s

/-- The timing section of FlightLoopCallback (lines 1705-1760): advance
the transition or the shot clock; on shot expiry capture the current
camera pose as the start pose, select the next shot, compute its target
pose and switch instantly (g_inTransition is set to false, lines
1754-1756). -/
noncomputable def flightLoopTiming (s : MCState) (inp : HostInputs) (r : RandDraws) :
    Option MCState :=
  if s.functionActive = true ∧ s.functionPaused = false then
    if s.inTransition = true then
      let p := s.transitionProgress + inp.dt / s.transitionDuration
      if p ≥ 1 then
        some { s with inTransition := false, transitionProgress := 0, shotElapsedTime := 0 }
      else some { s with transitionProgress := p }
    else
      let s1 := { s with
        shotElapsedTime := s.shotElapsedTime + inp.dt
        currentShotTime := s.currentShotTime - inp.dt }
      if s1.currentShotTime ≤ (0 : ℝ) then
        let s2 := { s1 with startPos := inp.cameraPos }
        match SelectNextShot s2 r with
        | none => none
        | some (nextShot, s3) =>
          some { s3 with
            targetPos := ComputeShotTargetPos nextShot s3.pilotEyeX s3.pilotEyeY s3.pilotEyeZ
              inp.acfX inp.acfY inp.acfZ inp.acfHeading
            inTransition := false
            transitionProgress := 0
            currentShotTime := nextShot.duration }
      else some s1
  else some s

/-- FlightLoopCallback (lines 1660-1763) as one state transition: the
mouse section, then the mode section, then the timing section. -/
noncomputable def FlightLoopCallbackStep (s : MCState) (inp : HostInputs) (r : RandDraws) :
    Option MCState :=
  (flightLoopAuto (flightLoopMouse s inp) inp r).bind fun s2 => flightLoopTiming s2 inp r

/-! ## Custom path model

Modelled from the spec: the repository's sources contain no custom-path
implementation (no CameraKeyframe, CustomCameraPath, path sampling or
keyframe interpolation code), only the specification describes it
(sections 3, 4.1 and 4.3).  The definitions of this namespace follow the
specification's words. -/

namespace PathModel

/-- Modelled from the spec: a CameraKeyframe (section 3) is a timestamped
pose with zoom and two lens parameters. -/
structure CameraKeyframe where
  time : ℝ
  x : ℝ
  y : ℝ
  z : ℝ
  pitch : ℝ
  heading : ℝ
  roll : ℝ
  zoom : ℝ
  focalLength : ℝ
  aperture : ℝ

/-- Modelled from the spec: a CustomCameraPath (section 3) is an ordered
keyframe sequence with a loop flag. -/
structure CustomCameraPath where
  keyframes : List CameraKeyframe
  looping : Bool

/-- Modelled from the spec (section 4.3): totalDuration is the last
keyframe's timestamp, or 0 if the path is empty. -/
def totalDuration (p : CustomCameraPath) : ℝ :=
  ((p.keyframes.getLast?).map (fun k => k.time)).getD 0

/-- Modelled from the spec (section 4.1): lerp. -/
noncomputable def lerp (a b t : ℝ) : ℝ := a + (b - a) * t

/-- Modelled from the spec (section 4.1): the add-360 side of
normalizeAngleDeg, which targets the half-open window (-180, 180], so the
loop adds while the angle is at or below -180. -/
noncomputable def angleLoopUpWeak (a : ℝ) : ℝ :=
  if a ≤ -180 then angleLoopUpWeak (a + 360) else a
termination_by (⌊(a + 180) / 360⌋ - 1).natAbs
decreasing_by
  have hnum : a + 180 ≤ 0 := by linarith
  have hle : (a + 180) / 360 ≤ 0 := div_nonpos_of_nonpos_of_nonneg hnum (by norm_num)
  have hf : ⌊(a + 180) / 360⌋ ≤ 0 := Int.floor_nonpos hle
  have heq : (a + 360 + 180) / 360 = (a + 180) / 360 + 1 := by ring
  rw [heq, Int.floor_add_one]
  omega

/-- Modelled from the spec (section 4.1): normalizeAngleDeg repeatedly
adds or subtracts 360 until the angle lies in (-180, 180]. -/
noncomputable def normalizeAngleDeg (a : ℝ) : ℝ := angleLoopUpWeak (angleLoopDown a)

/-- Modelled from the spec (section 4.1): lerpAngle interpolates along the
shorter arc. -/
noncomputable def lerpAngle (a b t : ℝ) : ℝ := a + normalizeAngleDeg (b - a) * t

/-- Modelled from the spec (section 4.1): easeInOutSine; the same formula
appears at lines 1071-1073 of the source. -/
noncomputable def easeInOutSine (t : ℝ) : ℝ := -(Real.cos (Real.pi * t) - 1) / 2

/-- Modelled from the spec (section 4.3): find the keyframe pair whose
half-open time interval contains the query time; past the last keyframe
(or when no pair matches) clamp to the final segment. -/
noncomputable def findSegment : List CameraKeyframe → ℝ → Option (CameraKeyframe × CameraKeyframe)
  | k1 :: k2 :: rest, t =>
    if k1.time ≤ t ∧ t < k2.time then some (k1, k2)
    else
      match findSegment (k2 :: rest) t with
      | some pr => some pr
      | none => some (k1, k2)
  | _, _ => none

/-- The pose a path sample yields: position, attitude, zoom and the two
lens parameters of the blended keyframes. -/
structure PathPose where
  x : ℝ
  y : ℝ
  z : ℝ
  pitch : ℝ
  heading : ℝ
  roll : ℝ
  zoom : ℝ
  focalLength : ℝ
  aperture : ℝ

/-- The pose stored in one keyframe. -/
def keyframePose (k : CameraKeyframe) : PathPose :=
  { x := k.x, y := k.y, z := k.z, pitch := k.pitch, heading := k.heading,
    roll := k.roll, zoom := k.zoom, focalLength := k.focalLength, aperture := k.aperture }

/-- Modelled from the spec (section 4.3): blend one keyframe pair at a
query time; the interpolation factor is guarded against a zero-length
segment, clamped to the unit interval and shaped by easeInOutSine, the
heading blended through the shortest arc. -/
noncomputable def sampleKeyframePair (k1 k2 : CameraKeyframe) (t : ℝ) : PathPose :=
  let dt := k2.time - k1.time
  let segT := if dt = 0 then 0 else min (max ((t - k1.time) / dt) 0) 1
  let e := easeInOutSine segT
  { x := lerp k1.x k2.x e
    y := lerp k1.y k2.y e
    z := lerp k1.z k2.z e
    pitch := lerp k1.pitch k2.pitch e
    heading := lerpAngle k1.heading k2.heading e
    roll := lerp k1.roll k2.roll e
    zoom := lerp k1.zoom k2.zoom e
    focalLength := lerp k1.focalLength k2.focalLength e
    aperture := lerp k1.aperture k2.aperture e }

/-- Modelled from the spec (section 4.3): sample a path at a query time;
a looping path wraps the time modulo the total duration first, and a path
with fewer than two keyframes yields nothing. -/
noncomputable def samplePath (p : CustomCameraPath) (t : ℝ) : Option PathPose :=
  let total := totalDuration p
  let tw := if p.looping = true ∧ 0 < total then t - total * ⌊t / total⌋ else t
  (findSegment p.keyframes tw).map fun pr => sampleKeyframePair pr.1 pr.2 tw

end PathModel

/-! ## Concrete instances used by the closed witnesses and counterexamples -/

/-- A concrete cockpit shot. -/
def exCockA : CameraShot :=
  { type := CameraType.Cockpit, x := 0, y := 1, z := 2, pitch := -10, heading := 0,
    roll := 0, zoom := 1, duration := 9, name := "Panel",
    driftX := 0, driftY := 0, driftZ := 0, driftPitch := 0, driftHeading := 0,
    driftRoll := 0, driftZoom := 0 }

/-- A second concrete cockpit shot. -/
def exCockB : CameraShot :=
  { type := CameraType.Cockpit, x := 1, y := 0, z := 0, pitch := 0, heading := 30,
    roll := 0, zoom := 1, duration := 8, name := "Window",
    driftX := 0, driftY := 0, driftZ := 0, driftPitch := 0, driftHeading := 0,
    driftRoll := 0, driftZoom := 0 }

/-- A concrete external shot. -/
def exExtA : CameraShot :=
  { type := CameraType.External, x := 10, y := 5, z := -40, pitch := 8, heading := 178,
    roll := 0, zoom := 1, duration := 11, name := "Front",
    driftX := 0, driftY := 0, driftZ := 0, driftPitch := 0, driftHeading := 0,
    driftRoll := 0, driftZoom := 0 }

/-- A concrete camera pose. -/
def exPose : CameraPose :=
  { x := 3, y := 4, z := 5, pitch := 0, heading := 0, roll := 0, zoom := 1 }

/-- A concrete engine state: Manual mode, camera active and unpaused,
mid-shot, two cockpit shots and one external shot in the catalogs. -/
def exState : MCState :=
  { pluginMode := PluginMode.Manual
    functionActive := true
    functionPaused := false
    delaySeconds := 60
    autoAltFt := 18000
    shotMinDuration := 6
    shotMaxDuration := 6
    lastMouseX := 100
    lastMouseY := 200
    mouseIdleTime := 10
    currentShotTime := 5
    shotElapsedTime := 3
    currentShotIndex := 0
    consecutiveSameTypeCount := 1
    lastShotType := CameraType.Cockpit
    currentShot := exCockA
    transitionProgress := 0
    transitionDuration := 1
    startPos := exPose
    targetPos := exPose
    inTransition := false
    cockpitShots := [exCockA, exCockB]
    externalShots := [exExtA]
    pilotEyeX := 0
    pilotEyeY := 0
    pilotEyeZ := 0 }

/-- Concrete host inputs for a tick with the mouse unmoved, a large
elapsed time (so the current shot expires) and the aircraft at the origin
with heading zero. -/
def exInputs : HostInputs :=
  { mouseX := 100, mouseY := 200, dt := 7, onGround := false, groundSpeed := 0,
    elevationM := 10000, acfX := 0, acfY := 0, acfZ := 0, acfHeading := 0,
    cameraPos := exPose }

/-- Concrete random draws: the index loop draws index 1. -/
def exRand : RandDraws :=
  { startTypeDraw := 0, typeDraw := 0, idxDraws := [1], durDraw := 0 }

/-- A concrete two-keyframe path: 2 seconds long, heading turning from 0
to 350 degrees. -/
def exKf1 : PathModel.CameraKeyframe :=
  { time := 0, x := 0, y := 0, z := 0, pitch := 0, heading := 0, roll := 0,
    zoom := 1, focalLength := 50, aperture := 4 }

/-- The second keyframe of the concrete path. -/
def exKf2 : PathModel.CameraKeyframe :=
  { time := 2, x := 10, y := 0, z := 0, pitch := 0, heading := 350, roll := 0,
    zoom := 1, focalLength := 50, aperture := 4 }

/-- The concrete non-looping path. -/
def exPath : PathModel.CustomCameraPath :=
  { keyframes := [exKf1, exKf2], looping := false }

/-- The concrete looping path. -/
def exPathLoop : PathModel.CustomCameraPath :=
  { keyframes := [exKf1, exKf2], looping := true }

/-- The shot SelectNextShot returns from exState and exRand: the second
cockpit shot with the randomized (here degenerate) duration. -/
def exShotOut : CameraShot := { exCockB with duration := 6 }

/-- The state SelectNextShot leaves from exState and exRand. -/
def exStateOut : MCState :=
  { exState with
    consecutiveSameTypeCount := 2
    currentShotIndex := 1
    currentShot := exShotOut
    shotElapsedTime := 0 }

/-- exState with the last shot type External, so the chosen list has a
single entry. -/
def exExtState : MCState := { exState with lastShotType := CameraType.External }

/-- exState with the camera not engaged. -/
def exIdleState : MCState := { exState with functionActive := false }

/-- exState paused with the idle time at the configured delay. -/
def exPausedState : MCState := { exState with functionPaused := true, mouseIdleTime := 60 }

/-- exState in Auto mode. -/
def exAutoState : MCState := { exState with pluginMode := PluginMode.Auto }

/-- Host inputs with the mouse moved and a one-second tick. -/
def exInputsMoved : HostInputs := { exInputs with mouseX := 101, dt := 1 }

/-- Host inputs with the mouse still and a one-second tick. -/
def exInputsStill : HostInputs := { exInputs with dt := 1 }

/-- Host inputs on the ground at two meters per second, mouse still. -/
def exAutoInputs : HostInputs :=
  { exInputs with onGround := true, groundSpeed := 2, dt := 1 }

/-! ## Helper lemmas about the angle loops -/

/-- The subtract loop keeps its result at or below 180. -/
theorem angleLoopDown_le {K : Type} [LinearOrderedField K] [FloorRing K] (a : K) :
    angleLoopDown a ≤ 180 := by
  induction a using angleLoopDown.induct with
  | case1 x h ih => rw [angleLoopDown, if_pos h]; exact ih
  | case2 x h => rw [angleLoopDown, if_neg h]; linarith [not_lt.mp h]

/-- The subtract loop changes its input by a whole number of turns. -/
theorem angleLoopDown_congr {K : Type} [LinearOrderedField K] [FloorRing K] (a : K) :
    ∃ k : ℤ, angleLoopDown a = a - 360 * k := by
  induction a using angleLoopDown.induct with
  | case1 x h ih =>
    obtain ⟨k, hk⟩ := ih
    exact ⟨k + 1, by rw [angleLoopDown, if_pos h, hk]; push_cast; ring⟩
  | case2 x h => exact ⟨0, by rw [angleLoopDown, if_neg h]; ring⟩

/-- The add loop keeps its result at or above -180. -/
theorem angleLoopUp_ge {K : Type} [LinearOrderedField K] [FloorRing K] (a : K) :
    -180 ≤ angleLoopUp a := by
  induction a using angleLoopUp.induct with
  | case1 x h ih => rw [angleLoopUp, if_pos h]; exact ih
  | case2 x h => rw [angleLoopUp, if_neg h]; linarith [not_lt.mp h]

/-- The add loop preserves an upper bound of 180. -/
theorem angleLoopUp_le {K : Type} [LinearOrderedField K] [FloorRing K] (a : K)
    (ha : a ≤ 180) : angleLoopUp a ≤ 180 := by
  induction a using angleLoopUp.induct with
  | case1 x h ih => rw [angleLoopUp, if_pos h]; exact ih (by linarith)
  | case2 x h => rw [angleLoopUp, if_neg h]; exact ha

/-- The add loop changes its input by a whole number of turns. -/
theorem angleLoopUp_congr {K : Type} [LinearOrderedField K] [FloorRing K] (a : K) :
    ∃ k : ℤ, angleLoopUp a = a + 360 * k := by
  induction a using angleLoopUp.induct with
  | case1 x h ih =>
    obtain ⟨k, hk⟩ := ih
    exact ⟨k + 1, by rw [angleLoopUp, if_pos h, hk]; push_cast; ring⟩
  | case2 x h => exact ⟨0, by rw [angleLoopUp, if_neg h]; ring⟩

/-- NormalizeAngle changes its input by a whole number of turns. -/
theorem normalizeAngle_congr (a : ℚ) : ∃ k : ℤ, NormalizeAngle a = a + 360 * k := by
  obtain ⟨k1, h1⟩ := angleLoopDown_congr a
  obtain ⟨k2, h2⟩ := angleLoopUp_congr (angleLoopDown a)
  exact ⟨k2 - k1, by rw [NormalizeAngle, h2, h1]; push_cast; ring⟩

/-- The normalized difference across the seam of the concrete pair 170 and
-170 is the short 20 degree arc. -/
theorem normalizeAngle_seam : NormalizeAngle ((-170 : ℚ) - 170) = 20 := by
  have h : ((-170 : ℚ) - 170) = -340 := by norm_num
  rw [h, NormalizeAngle]
  rw [angleLoopDown]; norm_num
  rw [angleLoopUp]; norm_num
  rw [angleLoopUp]; norm_num

/-! ## C6 and C7 -/

/-- C6: lerpAngle round-trips at the endpoints, at t equal 0 exactly and
at t equal 1 modulo 360 degrees, and interpolating across the plus-minus
180 seam from 170 to -170 moves along the short 20 degree arc (the sample
sweeps 170 plus 20 t, a 20 degree traversal, never the 340 degree one). -/
theorem c6_lerpAngle_endpoints_and_seam :
    (∀ a b : ℚ, LerpAngle a b 0 = a) ∧
    (∀ a b : ℚ, ∃ k : ℤ, LerpAngle a b 1 - b = 360 * k) ∧
    (∀ t : ℚ, LerpAngle 170 (-170) t = 170 + 20 * t) := by
  refine ⟨fun a b => by simp [LerpAngle], fun a b => ?_, fun t => ?_⟩
  · obtain ⟨k, hk⟩ := normalizeAngle_congr (b - a)
    exact ⟨k, by rw [LerpAngle, hk]; ring⟩
  · rw [LerpAngle, normalizeAngle_seam]

/-- C7 counterexample: the claim puts every normalized angle in the
half-open interval (-180, 180], but the input -540 normalizes to -180
itself, which is not greater than -180. -/
theorem c7_counterexample :
    NormalizeAngle (-540) = -180 ∧ ¬ ((-180 : ℚ) < NormalizeAngle (-540)) := by
  have h : NormalizeAngle (-540 : ℚ) = -180 := by
    rw [NormalizeAngle]
    rw [angleLoopDown]; norm_num
    rw [angleLoopUp]; norm_num
    rw [angleLoopUp]; norm_num
  exact ⟨h, by rw [h]; exact lt_irrefl _⟩

/-- C7 amended: NormalizeAngle lands in the closed interval from -180 to
180 (the lower end included, since the add loop stops as soon as the angle
is no longer strictly below -180) and differs from its input by an integer
multiple of 360 degrees. -/
theorem c7_normalizeAngle_range_amended :
    ∀ a : ℚ, -180 ≤ NormalizeAngle a ∧ NormalizeAngle a ≤ 180 ∧
      ∃ k : ℤ, NormalizeAngle a = a + 360 * k := by
  intro a
  refine ⟨angleLoopUp_ge _, ?_, normalizeAngle_congr a⟩
  exact angleLoopUp_le _ (angleLoopDown_le a)

/-! ## C10 -/

/-- LinearDrift written without the local bindings: the blend factor is a
piecewise curve clamped at 1. -/
theorem linearDrift_eq (b d t : ℚ) :
    LinearDrift b d t =
      b + d * min (if easeInDurationRatio ≤ t then
          easeInDurationRatio + 3 * easeInDurationRatio * (t - easeInDurationRatio)
        else EaseInCubic (t / easeInDurationRatio) * easeInDurationRatio) 1 := by
  rw [LinearDrift]
  rcases lt_or_le t easeInDurationRatio with h | h
  · rw [if_pos h, if_neg (not_le.mpr h)]
  · rw [if_neg (not_lt.mpr h), if_pos h]

/-- LinearDrift is continuous in normalized time: the two branch formulas
agree at the phase boundary. -/
theorem linearDrift_continuous (b d : ℚ) : Continuous (LinearDrift b d) := by
  have hfun : LinearDrift b d = fun t =>
      b + d * min (if easeInDurationRatio ≤ t then
          easeInDurationRatio + 3 * easeInDurationRatio * (t - easeInDurationRatio)
        else EaseInCubic (t / easeInDurationRatio) * easeInDurationRatio) 1 :=
    funext fun t => linearDrift_eq b d t
  rw [hfun]
  refine Continuous.add continuous_const (Continuous.mul continuous_const
    (Continuous.min (Continuous.if_le ?_ ?_ continuous_const continuous_id ?_)
      continuous_const))
  · fun_prop
  · unfold EaseInCubic
    fun_prop
  · intro t ht
    rw [← ht]
    unfold EaseInCubic easeInDurationRatio
    norm_num

/-- C10: LinearDrift starts at the base value, is continuous across the
ease-in to linear boundary at 0.3, and ends the shot at the base value
plus 0.93 of the drift amount (the blend factor 4R - 3R squared at R
equal 0.3, below the clamp at 1), so a nonzero drift never reaches its
full amount by the end of the shot. -/
theorem c10_linearDrift_profile :
    easeInDurationRatio = 3 / 10 ∧
    (∀ b d : ℚ, LinearDrift b d 0 = b) ∧
    (∀ b d : ℚ, ContinuousAt (LinearDrift b d) easeInDurationRatio) ∧
    (∀ b d : ℚ, LinearDrift b d 1 = b + (93 / 100) * d) ∧
    (∀ b d : ℚ, d ≠ 0 → LinearDrift b d 1 ≠ b + d) := by
  have hone : ∀ b d : ℚ, LinearDrift b d 1 = b + (93 / 100) * d := by
    intro b d
    rw [linearDrift_eq]
    rw [if_pos (by norm_num [easeInDurationRatio])]
    rw [easeInDurationRatio]
    rw [min_eq_left (by norm_num)]
    ring
  refine ⟨rfl, fun b d => ?_, fun b d => (linearDrift_continuous b d).continuousAt,
    hone, fun b d hd => ?_⟩
  · rw [linearDrift_eq]
    rw [if_neg (by norm_num [easeInDurationRatio])]
    rw [easeInDurationRatio, EaseInCubic]
    rw [min_eq_left (by norm_num)]
    ring
  · rw [hone]
    intro hEq
    apply hd
    linarith

/-! ## C2 -/

/-- C2 counterexample: with the aircraft at local height 10, seven meters
above the terrain, a drifted external offset one unit below the aircraft
is first lifted by the ground clamp to exactly terrain plus clearance
(world y 5), but the minimum-visible-distance validation then scales the
below-aircraft offset outward by a factor 12 and the final world y of -50
lies far below terrain plus minimum clearance. -/
theorem c2_counterexample :
    (ExternalShotWorldPosition 0 (-5) 0 0 10 0 0 0 0 7 35 40).2.1 = -50 ∧
    (ExternalShotWorldPosition 0 (-5) 0 0 10 0 0 0 0 7 35 40).2.1 <
      ((10 : ℝ) - 7) + MIN_CAMERA_HEIGHT_ABOVE_GROUND := by
  have htr : TransformToWorldCoordinates 0 (-5) 0 0 10 0 0 0 0 = (0, 5, 0) := by
    simp [TransformToWorldCoordinates]
    norm_num
  have hE : EnsureAboveGround 10 7 5 = 5 := by
    rw [EnsureAboveGround, MIN_CAMERA_HEIGHT_ABOVE_GROUND]
    norm_num
  have hC : CalculateMinVisibleDistance 35 40 = 60 := by
    rw [CalculateMinVisibleDistance, MIN_CAMERA_DISTANCE_FROM_AIRCRAFT]
    rw [max_eq_right (by norm_num : (35 : ℝ) ≤ 40)]
    rw [max_eq_left (by norm_num : (5 : ℝ) ≤ 40 * (3 / 2))]
    norm_num
  have hsq : Real.sqrt (((0 : ℝ) - 0) * ((0 : ℝ) - 0) + ((5 : ℝ) - 10) * ((5 : ℝ) - 10) +
      ((0 : ℝ) - 0) * ((0 : ℝ) - 0)) = 5 := by
    rw [show (((0 : ℝ) - 0) * ((0 : ℝ) - 0) + ((5 : ℝ) - 10) * ((5 : ℝ) - 10) +
      ((0 : ℝ) - 0) * ((0 : ℝ) - 0)) = 5 ^ 2 by norm_num]
    exact Real.sqrt_sq (by norm_num)
  have hV : ValidateCameraPosition 0 5 0 0 10 0 CameraType.External 35 40 = (0, -50, 0) := by
    rw [ValidateCameraPosition]
    rw [if_neg (by simp)]
    simp only [hsq, hC]
    rw [if_pos (by norm_num)]
    norm_num
  have hmain : ExternalShotWorldPosition 0 (-5) 0 0 10 0 0 0 0 7 35 40 = (0, -50, 0) := by
    rw [ExternalShotWorldPosition, htr]
    simp only
    rw [hE, hV]
  rw [hmain, MIN_CAMERA_HEIGHT_ABOVE_GROUND]
  norm_num

/-- C2 amended: the ground clamp itself guarantees a world y of at least
terrain plus minimum clearance at the point it is applied, and the
minimum-visible-distance validation that runs afterwards preserves that
bound whenever the clamped camera is not below the aircraft; when the
camera lies below the aircraft the outward scaling can push the world y
back below terrain plus clearance (the counterexample). -/
theorem c2_ground_clamp_amended :
    (∀ aircraftY agl cameraY : ℝ,
      (aircraftY - agl) + MIN_CAMERA_HEIGHT_ABOVE_GROUND ≤
        EnsureAboveGround aircraftY agl cameraY) ∧
    (∀ wx wy wz acfX acfY acfZ wingspan fuselageLength agl : ℝ,
      (acfY - agl) + MIN_CAMERA_HEIGHT_ABOVE_GROUND ≤ wy → acfY ≤ wy →
      (acfY - agl) + MIN_CAMERA_HEIGHT_ABOVE_GROUND ≤
        (ValidateCameraPosition wx wy wz acfX acfY acfZ CameraType.External
          wingspan fuselageLength).2.1) := by
  constructor
  · intro aircraftY agl cameraY
    exact le_max_right _ _
  · intro wx wy wz acfX acfY acfZ wingspan fuselageLength agl hwy hup
    rw [ValidateCameraPosition]
    rw [if_neg (by simp)]
    simp only
    split_ifs with h
    · obtain ⟨hlt, hgt⟩ := h
      simp only
      have hdpos : (0 : ℝ) < Real.sqrt ((wx - acfX) * (wx - acfX) +
          (wy - acfY) * (wy - acfY) + (wz - acfZ) * (wz - acfZ)) :=
        lt_trans (by norm_num) hgt
      have hs : 1 ≤ CalculateMinVisibleDistance wingspan fuselageLength /
          Real.sqrt ((wx - acfX) * (wx - acfX) + (wy - acfY) * (wy - acfY) +
            (wz - acfZ) * (wz - acfZ)) :=
        (one_le_div hdpos).mpr (le_of_lt hlt)
      have hdy : (0 : ℝ) ≤ wy - acfY := by linarith
      have hmul := le_mul_of_one_le_right hdy hs
      linarith
    · exact hwy

/-- C2 witness: the amended preservation statement applied at a camera
five meters above the aircraft. -/
theorem c2_ground_clamp_witness :
    ((10 : ℝ) - 1) + MIN_CAMERA_HEIGHT_ABOVE_GROUND ≤ 15 ∧ (10 : ℝ) ≤ 15 ∧
    ((10 : ℝ) - 1) + MIN_CAMERA_HEIGHT_ABOVE_GROUND ≤
      (ValidateCameraPosition 0 15 0 0 10 0 CameraType.External 35 40).2.1 :=
  ⟨by norm_num [MIN_CAMERA_HEIGHT_ABOVE_GROUND], by norm_num,
   c2_ground_clamp_amended.2 0 15 0 0 10 0 35 40 1
     (by norm_num [MIN_CAMERA_HEIGHT_ABOVE_GROUND]) (by norm_num)⟩

/-! ## Helper lemmas about shot selection -/

/-- The re-draw loop never returns the previous index while the list has
more than one entry. -/
theorem drawIndexLoop_ne_prev :
    ∀ (draws : List Nat) (prev : Int) (size : Nat) (i : Nat),
      drawIndexLoop draws prev size = some i → 1 < size → (i : Int) ≠ prev := by
  intro draws
  induction draws with
  | nil => intro prev size i h; simp [drawIndexLoop] at h
  | cons d rest ih =>
    intro prev size i h hsize
    simp only [drawIndexLoop] at h
    split_ifs at h with hcond
    · exact ih prev size i h hsize
    · simp only [Option.some.injEq] at h
      subst h
      push_neg at hcond
      intro hEq
      exact absurd (hcond hEq) (not_le.mpr hsize)

/-- SelectNextShot succeeds when the chosen list is nonempty and the
re-draw loop has a result on the supplied draws. -/
theorem SelectNextShot_isSome (s : MCState) (r : RandDraws)
    (hne : selectShotList s r ≠ [])
    (hdraw : (drawIndexLoop r.idxDraws s.currentShotIndex
      (selectShotList s r).length).isSome = true) :
    (SelectNextShot s r).isSome = true := by
  obtain ⟨i, hi⟩ := Option.isSome_iff_exists.mp hdraw
  cases hsl : selectShotList s r with
  | nil => exact absurd hsl hne
  | cons a l =>
    rw [hsl] at hi
    simp only [List.length_cons] at hi
    by_cases hty : selectNextType s r = s.lastShotType <;>
      simp [SelectNextShot, hsl, hty, hi]

/-- Whatever SelectNextShot returns on a nonempty chosen list, the output
state stores the returned shot as the current shot, and the fields the
flight loop reads afterwards (the start pose and the pilot-eye offsets)
are untouched. -/
theorem SelectNextShot_out_fields (s : MCState) (r : RandDraws) (sh : CameraShot)
    (s2 : MCState) (h : SelectNextShot s r = some (sh, s2))
    (hne : selectShotList s r ≠ []) :
    s2.currentShot = sh ∧ s2.startPos = s.startPos ∧ s2.pilotEyeX = s.pilotEyeX ∧
    s2.pilotEyeY = s.pilotEyeY ∧ s2.pilotEyeZ = s.pilotEyeZ := by
  cases hsl : selectShotList s r with
  | nil => exact absurd hsl hne
  | cons a l =>
    by_cases hty : selectNextType s r = s.lastShotType
    · simp only [SelectNextShot, hsl, hty] at h
      simp at h
      split at h
      · exact absurd h.symm (by simp)
      · rw [Option.some.injEq, Prod.mk.injEq] at h
        obtain ⟨h1, h2⟩ := h
        subst h2
        simp [h1]
    · simp only [SelectNextShot, hsl] at h
      simp [hty] at h
      split at h
      · exact absurd h.symm (by simp)
      · rw [Option.some.injEq, Prod.mk.injEq] at h
        obtain ⟨h1, h2⟩ := h
        subst h2
        simp [h1]

/-- SelectNextShot evaluated at the concrete state and draws: it keeps the
cockpit category, draws index 1 avoiding the previous index 0, and stores
the second cockpit shot with the degenerate randomized duration. -/
theorem exSelect_eval : SelectNextShot exState exRand = some (exShotOut, exStateOut) := by
  simp [SelectNextShot, selectShotList, selectNextType, exState, exRand, drawIndexLoop,
    exShotOut, exStateOut, exCockB, exCockA, defaultShot]

/-- With fewer than three consecutive same-type shots the next type is
forced to stay the previous type. -/
theorem selectNextType_eq_of_lt (s : MCState) (r : RandDraws)
    (h : ¬ 3 ≤ s.consecutiveSameTypeCount) : selectNextType s r = s.lastShotType := by
  simp [selectNextType, h]

/-- The output state of SelectNextShot carries the settled type and the
updated consecutive-type counter: reset to 1 on a type change, incremented
otherwise. -/
theorem SelectNextShot_tracking (s : MCState) (r : RandDraws) (sh : CameraShot)
    (s2 : MCState) (h : SelectNextShot s r = some (sh, s2)) :
    s2.lastShotType = selectNextType s r ∧
    s2.consecutiveSameTypeCount =
      (if selectNextType s r ≠ s.lastShotType then 1
        else s.consecutiveSameTypeCount + 1) := by
  cases hsl : selectShotList s r with
  | nil =>
    by_cases hty : selectNextType s r = s.lastShotType
    · simp only [SelectNextShot, hsl, hty] at h
      simp at h
      obtain ⟨_, h2⟩ := h
      subst h2
      simp [hty]
    · simp only [SelectNextShot, hsl] at h
      simp [hty] at h
      obtain ⟨_, h2⟩ := h
      subst h2
      simp [hty]
  | cons a l =>
    by_cases hty : selectNextType s r = s.lastShotType
    · simp only [SelectNextShot, hsl, hty] at h
      simp at h
      split at h
      · exact absurd h.symm (by simp)
      · rw [Option.some.injEq, Prod.mk.injEq] at h
        obtain ⟨_, h2⟩ := h
        subst h2
        simp [hty]
    · simp only [SelectNextShot, hsl] at h
      simp [hty] at h
      split at h
      · exact absurd h.symm (by simp)
      · rw [Option.some.injEq, Prod.mk.injEq] at h
        obtain ⟨_, h2⟩ := h
        subst h2
        simp [hty]

/-! ## C3 and C4 -/

/-- C3: whenever SelectNextShot returns on a chosen list with more than
one entry, the stored index differs from the previously stored one; and
when the chosen list has exactly one entry the selection still terminates,
succeeding on the very first supplied draw (the re-draw guard is skipped
because the size test fails). -/
theorem c3_no_repeat_selection :
    (∀ (s : MCState) (r : RandDraws) (sh : CameraShot) (s2 : MCState),
      SelectNextShot s r = some (sh, s2) → 1 < (selectShotList s r).length →
      s2.currentShotIndex ≠ s.currentShotIndex) ∧
    (∀ (s : MCState) (r : RandDraws) (d : Nat) (rest : List Nat),
      (selectShotList s r).length = 1 → r.idxDraws = d :: rest →
      (SelectNextShot s r).isSome = true) := by
  constructor
  · intro s r sh s2 h hlen
    cases hsl : selectShotList s r with
    | nil => rw [hsl] at hlen; simp at hlen
    | cons a l =>
      rw [hsl] at hlen
      simp only [List.length_cons] at hlen
      by_cases hty : selectNextType s r = s.lastShotType
      · simp only [SelectNextShot, hsl, hty] at h
        simp at h
        split at h
        · exact absurd h.symm (by simp)
        · rename_i newIndex heq
          rw [Option.some.injEq, Prod.mk.injEq] at h
          obtain ⟨_, h2⟩ := h
          subst h2
          simpa using drawIndexLoop_ne_prev _ _ _ _ heq (by omega)
      · simp only [SelectNextShot, hsl] at h
        simp [hty] at h
        split at h
        · exact absurd h.symm (by simp)
        · rename_i newIndex heq
          rw [Option.some.injEq, Prod.mk.injEq] at h
          obtain ⟨_, h2⟩ := h
          subst h2
          simpa using drawIndexLoop_ne_prev _ _ _ _ heq (by omega)
  · intro s r d rest hlen hdraws
    apply SelectNextShot_isSome
    · intro hnil
      rw [hnil] at hlen
      simp at hlen
    · rw [hdraws, hlen]
      simp [drawIndexLoop]

/-- C3 witness: at the concrete two-entry cockpit list the returned index
1 differs from the previous index 0, and at the concrete one-entry
external list the selection succeeds on the single supplied draw. -/
theorem c3_witness :
    (SelectNextShot exState exRand = some (exShotOut, exStateOut) ∧
     1 < (selectShotList exState exRand).length ∧
     exStateOut.currentShotIndex ≠ exState.currentShotIndex) ∧
    ((selectShotList exExtState exRand).length = 1 ∧ exRand.idxDraws = [1] ∧
     (SelectNextShot exExtState exRand).isSome = true) := by
  refine ⟨⟨exSelect_eval, ?_, ?_⟩, ?_, rfl, ?_⟩
  · simp [selectShotList, selectNextType, exState, exRand]
  · exact c3_no_repeat_selection.1 exState exRand exShotOut exStateOut exSelect_eval
      (by simp [selectShotList, selectNextType, exState, exRand])
  · simp [selectShotList, selectNextType, exExtState, exState, exRand]
  · exact c3_no_repeat_selection.2 exExtState exRand 1 []
      (by simp [selectShotList, selectNextType, exExtState, exState, exRand]) rfl

/-- C4: across one SelectNextShot call the shot category can change only
when at least three consecutive shots of the current category have played,
and the consecutive-type counter is reset to 1 on a category change and
incremented otherwise. -/
theorem c4_category_switch_policy :
    ∀ (s : MCState) (r : RandDraws) (sh : CameraShot) (s2 : MCState),
      SelectNextShot s r = some (sh, s2) →
      ((s2.lastShotType ≠ s.lastShotType → 3 ≤ s.consecutiveSameTypeCount) ∧
        s2.consecutiveSameTypeCount =
          (if s2.lastShotType = s.lastShotType then s.consecutiveSameTypeCount + 1
            else 1)) := by
  intro s r sh s2 h
  obtain ⟨hty, hcount⟩ := SelectNextShot_tracking s r sh s2 h
  constructor
  · intro hneq
    by_contra hc
    exact hneq (hty.trans (selectNextType_eq_of_lt s r hc))
  · by_cases heq : selectNextType s r = s.lastShotType
    · rw [hcount, hty, heq]
      simp
    · rw [hcount, hty]
      simp [heq]

/-- C4 witness: the concrete call keeps the cockpit category (the counter
is below three) and increments the counter from 1 to 2. -/
theorem c4_witness :
    SelectNextShot exState exRand = some (exShotOut, exStateOut) ∧
    (exStateOut.lastShotType ≠ exState.lastShotType →
      3 ≤ exState.consecutiveSameTypeCount) ∧
    exStateOut.consecutiveSameTypeCount =
      (if exStateOut.lastShotType = exState.lastShotType
        then exState.consecutiveSameTypeCount + 1 else 1) :=
  ⟨exSelect_eval,
   (c4_category_switch_policy exState exRand exShotOut exStateOut exSelect_eval).1,
   (c4_category_switch_policy exState exRand exShotOut exStateOut exSelect_eval).2⟩

/-! ## Helper lemma for the mouse section -/

/-- One closed form for the mouse section: the remembered location is
updated, the idle time resets on movement and accumulates otherwise, and
movement pauses an active unpaused camera. -/
theorem flightLoopMouse_eq (s : MCState) (inp : HostInputs) :
    flightLoopMouse s inp = { s with
      lastMouseX := inp.mouseX
      lastMouseY := inp.mouseY
      mouseIdleTime := if inp.mouseX ≠ s.lastMouseX ∨ inp.mouseY ≠ s.lastMouseY then 0
        else s.mouseIdleTime + inp.dt
      functionPaused := if (inp.mouseX ≠ s.lastMouseX ∨ inp.mouseY ≠ s.lastMouseY) ∧
          s.functionActive = true ∧ s.functionPaused = false then true
        else s.functionPaused } := by
  by_cases hm : inp.mouseX ≠ s.lastMouseX ∨ inp.mouseY ≠ s.lastMouseY
  · by_cases hap : s.functionActive = true ∧ s.functionPaused = false
    · simp [flightLoopMouse, PauseCameraControl, hm, hap, hap.1, hap.2]
    · simp only [flightLoopMouse, PauseCameraControl]
      simp [hm, hap]
  · simp [flightLoopMouse, hm]

/-! ## C5 -/

/-- C5: the auto-engage condition holds exactly when the aircraft is on
the ground moving strictly slower than 1 meter per second, or airborne
above the configured altitude threshold (feet, converted with the factor
3.28084) with the idle time at or past the configured delay; on the ground
at half a meter per second it engages and at two meters per second it does
not; and in Auto mode an active camera is stopped by the very tick whose
(freshly updated) idle time leaves the condition false. -/
theorem c5_auto_engage_condition :
    (∀ (onGround : Bool) (gs elev idle delay alt : ℝ),
      CheckAutoConditions onGround gs elev idle delay alt = true ↔
        ((onGround = true ∧ gs < 1) ∨
          (onGround = false ∧ elev * (328084 / 100000) > alt ∧ delay ≤ idle))) ∧
    (∀ elev idle delay alt : ℝ,
      CheckAutoConditions true (1 / 2) elev idle delay alt = true ∧
      CheckAutoConditions true 2 elev idle delay alt = false) ∧
    (∀ (s : MCState) (inp : HostInputs) (r : RandDraws),
      s.pluginMode = PluginMode.Auto → s.functionActive = true →
      CheckAutoConditions inp.onGround inp.groundSpeed inp.elevationM
        (if inp.mouseX ≠ s.lastMouseX ∨ inp.mouseY ≠ s.lastMouseY then 0
          else s.mouseIdleTime + inp.dt) s.delaySeconds s.autoAltFt = false →
      ∃ s2, FlightLoopCallbackStep s inp r = some s2 ∧ s2.functionActive = false) := by
  refine ⟨?_, ?_, ?_⟩
  · intro onGround gs elev idle delay alt
    rw [CheckAutoConditions]
    split_ifs with h1 h2
    · simp only [true_iff]
      exact Or.inl h1
    · simp only [true_iff]
      exact Or.inr ⟨h2.1, h2.2.1, h2.2.2⟩
    · simp only [Bool.false_eq_true, false_iff]
      rintro (ha | hb)
      · exact h1 ha
      · exact h2 ⟨hb.1, hb.2.1, hb.2.2⟩
  · intro elev idle delay alt
    constructor
    · rw [CheckAutoConditions]
      rw [if_pos ⟨rfl, by norm_num⟩]
    · rw [CheckAutoConditions]
      rw [if_neg (by norm_num), if_neg (by norm_num)]
  · intro s inp r hmode hact hcond
    rw [FlightLoopCallbackStep, flightLoopMouse_eq]
    simp only [flightLoopAuto, flightLoopTiming, StopCameraControl]
    simp [hmode, hact, hcond]

/-- C5 witness: the disengage statement applied at a concrete Auto-mode
state rolling on the ground at two meters per second. -/
theorem c5_witness :
    exAutoState.pluginMode = PluginMode.Auto ∧ exAutoState.functionActive = true ∧
    CheckAutoConditions exAutoInputs.onGround exAutoInputs.groundSpeed
      exAutoInputs.elevationM
      (if exAutoInputs.mouseX ≠ exAutoState.lastMouseX ∨
          exAutoInputs.mouseY ≠ exAutoState.lastMouseY then 0
        else exAutoState.mouseIdleTime + exAutoInputs.dt)
      exAutoState.delaySeconds exAutoState.autoAltFt = false ∧
    ∃ s2, FlightLoopCallbackStep exAutoState exAutoInputs exRand = some s2 ∧
      s2.functionActive = false := by
  have h3 : CheckAutoConditions exAutoInputs.onGround exAutoInputs.groundSpeed
      exAutoInputs.elevationM
      (if exAutoInputs.mouseX ≠ exAutoState.lastMouseX ∨
          exAutoInputs.mouseY ≠ exAutoState.lastMouseY then 0
        else exAutoState.mouseIdleTime + exAutoInputs.dt)
      exAutoState.delaySeconds exAutoState.autoAltFt = false := by
    norm_num [CheckAutoConditions, exAutoState, exAutoInputs, exState, exInputs]
  exact ⟨rfl, rfl, h3,
    c5_auto_engage_condition.2.2 exAutoState exAutoInputs exRand rfl rfl h3⟩

/-! ## Helper lemmas for the shot-expiry step -/

/-- SelectNextShot cannot return none under the success conditions. -/
theorem SelectNextShot_ne_none (s : MCState) (r : RandDraws)
    (hne : selectShotList s r ≠ [])
    (hdraw : (drawIndexLoop r.idxDraws s.currentShotIndex
      (selectShotList s r).length).isSome = true)
    (h : SelectNextShot s r = none) : False := by
  have hs := SelectNextShot_isSome s r hne hdraw
  rw [h] at hs
  simp at hs

/-- In Manual mode with the camera not paused the mode section leaves the
state unchanged. -/
theorem flightLoopAuto_manual_unpaused (s : MCState) (inp : HostInputs) (r : RandDraws)
    (hmode : s.pluginMode = PluginMode.Manual) (hpaused : s.functionPaused = false) :
    flightLoopAuto s inp r = some s := by
  simp [flightLoopAuto, hmode, hpaused]

/-- The timing section at a shot expiry: the host camera pose is captured
as the start pose, the next shot is selected and its target pose computed,
and the switch is instant (the transition flag stays false). -/
theorem flightLoopTiming_expiry (s : MCState) (inp : HostInputs) (r : RandDraws)
    (hact : s.functionActive = true) (hpaused : s.functionPaused = false)
    (htrans : s.inTransition = false) (hexp : s.currentShotTime - inp.dt ≤ 0)
    (hne : selectShotList s r ≠ [])
    (hdraw : (drawIndexLoop r.idxDraws s.currentShotIndex
      (selectShotList s r).length).isSome = true) :
    ∃ s2, flightLoopTiming s inp r = some s2 ∧ s2.startPos = inp.cameraPos ∧
      s2.inTransition = false ∧
      s2.targetPos = ComputeShotTargetPos s2.currentShot s.pilotEyeX s.pilotEyeY
        s.pilotEyeZ inp.acfX inp.acfY inp.acfZ inp.acfHeading ∧
      s2.currentShotTime = s2.currentShot.duration := by
  simp only [flightLoopTiming]
  rw [if_pos ⟨hact, hpaused⟩]
  rw [if_neg (show ¬ s.inTransition = true by simp [htrans])]
  rw [if_pos hexp]
  split
  · rename_i heq
    exact (SelectNextShot_ne_none _ r (by exact hne) (by exact hdraw) heq).elim
  · rename_i sh s3 heq
    obtain ⟨hcur, hstart, hpx, hpy, hpz⟩ :=
      SelectNextShot_out_fields _ r sh s3 heq (by exact hne)
    refine ⟨_, rfl, ?_, rfl, ?_, ?_⟩
    · show s3.startPos = inp.cameraPos
      exact hstart
    · show ComputeShotTargetPos sh s3.pilotEyeX s3.pilotEyeY s3.pilotEyeZ
        inp.acfX inp.acfY inp.acfZ inp.acfHeading =
        ComputeShotTargetPos s3.currentShot s.pilotEyeX s.pilotEyeY s.pilotEyeZ
          inp.acfX inp.acfY inp.acfZ inp.acfHeading
      rw [hcur, hpx, hpy, hpz]
    · show sh.duration = s3.currentShot.duration
      rw [hcur]

/-- StartCameraControl under the selection success conditions: the host
camera pose is captured as the start pose, the first shot's target pose is
computed, the shot timer is armed, and the switch is instant (the
transition flag is false). -/
theorem StartCameraControl_spec (s : MCState) (inp : HostInputs) (r : RandDraws)
    (hact : s.functionActive = false)
    (hne : (if r.startTypeDraw % 2 = 0 then s.cockpitShots else s.externalShots) ≠ [])
    (hdraw : (drawIndexLoop r.idxDraws (-1)
      (if r.startTypeDraw % 2 = 0 then s.cockpitShots
        else s.externalShots).length).isSome = true) :
    ∃ s2, StartCameraControl s inp r = some s2 ∧ s2.startPos = inp.cameraPos ∧
      s2.inTransition = false ∧
      s2.targetPos = ComputeShotTargetPos s2.currentShot s.pilotEyeX s.pilotEyeY
        s.pilotEyeZ inp.acfX inp.acfY inp.acfZ inp.acfHeading ∧
      s2.currentShotTime = s2.currentShot.duration := by
  by_cases hd : r.startTypeDraw % 2 = 0
  · rw [if_pos hd] at hne hdraw
    simp only [StartCameraControl]
    rw [if_neg (by simp [hact]), if_pos hd]
    split
    · rename_i heq
      exact (SelectNextShot_ne_none _ r (by exact hne) (by exact hdraw) heq).elim
    · rename_i sh s3 heq
      obtain ⟨hcur, hstart, hpx, hpy, hpz⟩ :=
        SelectNextShot_out_fields _ r sh s3 heq (by exact hne)
      refine ⟨_, rfl, rfl, rfl, ?_, ?_⟩
      · show ComputeShotTargetPos sh s3.pilotEyeX s3.pilotEyeY s3.pilotEyeZ
          inp.acfX inp.acfY inp.acfZ inp.acfHeading =
          ComputeShotTargetPos s3.currentShot s.pilotEyeX s.pilotEyeY s.pilotEyeZ
            inp.acfX inp.acfY inp.acfZ inp.acfHeading
        rw [hcur, hpx, hpy, hpz]
      · show sh.duration = s3.currentShot.duration
        rw [hcur]
  · rw [if_neg hd] at hne hdraw
    simp only [StartCameraControl]
    rw [if_neg (by simp [hact]), if_neg hd]
    split
    · rename_i heq
      exact (SelectNextShot_ne_none _ r (by exact hne) (by exact hdraw) heq).elim
    · rename_i sh s3 heq
      obtain ⟨hcur, hstart, hpx, hpy, hpz⟩ :=
        SelectNextShot_out_fields _ r sh s3 heq (by exact hne)
      refine ⟨_, rfl, rfl, rfl, ?_, ?_⟩
      · show ComputeShotTargetPos sh s3.pilotEyeX s3.pilotEyeY s3.pilotEyeZ
          inp.acfX inp.acfY inp.acfZ inp.acfHeading =
          ComputeShotTargetPos s3.currentShot s.pilotEyeX s.pilotEyeY s.pilotEyeZ
            inp.acfX inp.acfY inp.acfZ inp.acfHeading
        rw [hcur, hpx, hpy, hpz]
      · show sh.duration = s3.currentShot.duration
        rw [hcur]

/-! ## C1 -/

/-- C1 counterexample: at a concrete tick on which the running shot's
remaining time elapses (shot time 5 seconds, tick 7 seconds), the flight
loop selects the next shot (the stored index moves from 0 to 1) yet the
state it leaves carries inTransition = false: contrary to the claim, the
machine does not enter the Transitioning phase, it cuts instantly. -/
theorem c1_counterexample :
    (FlightLoopCallbackStep exState exInputs exRand).map MCState.inTransition =
      some false ∧
    (FlightLoopCallbackStep exState exInputs exRand).map MCState.currentShotIndex =
      some 1 := by
  have hm : flightLoopMouse exState exInputs = { exState with mouseIdleTime := 17 } := by
    rw [flightLoopMouse_eq]
    norm_num [exState, exInputs]
  rw [FlightLoopCallbackStep, hm,
    flightLoopAuto_manual_unpaused { exState with mouseIdleTime := 17 } exInputs exRand
      rfl rfl]
  rw [Option.some_bind]
  norm_num [flightLoopTiming, SelectNextShot, selectShotList, selectNextType,
    drawIndexLoop, exState, exInputs, exRand, exCockA, exCockB, defaultShot]

/-- C1 amended: whenever a new shot begins while the camera is engaged,
at start (StartCameraControl from inactive) and on shot expiry in the
flight loop, the machine captures the current host camera pose as the
start pose, selects the next shot, computes and stores its initial target
pose and arms the shot timer, but it performs an instant cut: the
transition flag is left false (the Transitioning branch of the camera
callback is never entered), so frames jump to the new shot rather than
blending from the start pose to the target pose. -/
theorem c1_instant_cut_amended :
    (∀ (s : MCState) (inp : HostInputs) (r : RandDraws),
      s.functionActive = false →
      (if r.startTypeDraw % 2 = 0 then s.cockpitShots else s.externalShots) ≠ [] →
      (drawIndexLoop r.idxDraws (-1)
        (if r.startTypeDraw % 2 = 0 then s.cockpitShots
          else s.externalShots).length).isSome = true →
      ∃ s2, StartCameraControl s inp r = some s2 ∧ s2.startPos = inp.cameraPos ∧
        s2.inTransition = false ∧
        s2.targetPos = ComputeShotTargetPos s2.currentShot s.pilotEyeX s.pilotEyeY
          s.pilotEyeZ inp.acfX inp.acfY inp.acfZ inp.acfHeading ∧
        s2.currentShotTime = s2.currentShot.duration) ∧
    (∀ (s : MCState) (inp : HostInputs) (r : RandDraws),
      inp.mouseX = s.lastMouseX → inp.mouseY = s.lastMouseY →
      s.pluginMode = PluginMode.Manual → s.functionActive = true →
      s.functionPaused = false → s.inTransition = false →
      s.currentShotTime - inp.dt ≤ 0 →
      selectShotList s r ≠ [] →
      (drawIndexLoop r.idxDraws s.currentShotIndex
        (selectShotList s r).length).isSome = true →
      ∃ s2, FlightLoopCallbackStep s inp r = some s2 ∧ s2.startPos = inp.cameraPos ∧
        s2.inTransition = false ∧
        s2.targetPos = ComputeShotTargetPos s2.currentShot s.pilotEyeX s.pilotEyeY
          s.pilotEyeZ inp.acfX inp.acfY inp.acfZ inp.acfHeading ∧
        s2.currentShotTime = s2.currentShot.duration) := by
  constructor
  · intro s inp r hact hne hdraw
    exact StartCameraControl_spec s inp r hact hne hdraw
  · intro s inp r hmx hmy hmode hact hpaused htrans hexp hne hdraw
    have hm : flightLoopMouse s inp = { s with
        lastMouseX := inp.mouseX
        lastMouseY := inp.mouseY
        mouseIdleTime := s.mouseIdleTime + inp.dt } := by
      rw [flightLoopMouse_eq]
      simp [hmx, hmy]
    rw [FlightLoopCallbackStep, hm]
    rw [flightLoopAuto_manual_unpaused { s with
        lastMouseX := inp.mouseX
        lastMouseY := inp.mouseY
        mouseIdleTime := s.mouseIdleTime + inp.dt } inp r (by exact hmode) (by exact hpaused)]
    rw [Option.some_bind]
    obtain ⟨s2, h1, h2, h3, h4, h5⟩ := flightLoopTiming_expiry { s with
        lastMouseX := inp.mouseX
        lastMouseY := inp.mouseY
        mouseIdleTime := s.mouseIdleTime + inp.dt } inp r (by exact hact) (by exact hpaused)
      (by exact htrans) (by exact hexp) (by exact hne) (by exact hdraw)
    exact ⟨s2, h1, h2, h3, by exact h4, h5⟩

/-- C1 witness: the amended statement applied at a concrete start from the
idle state and at a concrete shot-expiry tick. -/
theorem c1_witness :
    (∃ s2, StartCameraControl exIdleState exInputs exRand = some s2 ∧
      s2.startPos = exInputs.cameraPos ∧ s2.inTransition = false ∧
      s2.targetPos = ComputeShotTargetPos s2.currentShot exIdleState.pilotEyeX
        exIdleState.pilotEyeY exIdleState.pilotEyeZ exInputs.acfX exInputs.acfY
        exInputs.acfZ exInputs.acfHeading ∧
      s2.currentShotTime = s2.currentShot.duration) ∧
    (∃ s2, FlightLoopCallbackStep exState exInputs exRand = some s2 ∧
      s2.startPos = exInputs.cameraPos ∧ s2.inTransition = false ∧
      s2.targetPos = ComputeShotTargetPos s2.currentShot exState.pilotEyeX
        exState.pilotEyeY exState.pilotEyeZ exInputs.acfX exInputs.acfY
        exInputs.acfZ exInputs.acfHeading ∧
      s2.currentShotTime = s2.currentShot.duration) :=
  ⟨c1_instant_cut_amended.1 exIdleState exInputs exRand rfl
    (by simp [exRand, exIdleState, exState])
    (by simp [exRand, exIdleState, exState, drawIndexLoop]),
   c1_instant_cut_amended.2 exState exInputs exRand rfl rfl rfl rfl rfl rfl
    (by norm_num [exState, exInputs])
    (by simp [selectShotList, selectNextType, exState, exRand])
    (by simp [drawIndexLoop, selectShotList, selectNextType, exState, exRand])⟩

/-! ## C8 -/

/-- C8: pointer movement while the camera is active and unpaused resets
the idle time to 0 and pauses the camera while leaving the running shot's
elapsed time, remaining time, stored index and category counters exactly
as they were (the resulting state differs from the old one only in the
remembered mouse location, the idle time and the paused flag); and once
the idle time again reaches the configured delay a paused camera resumes
with that shot progress still in place, the shot clocks simply continuing
from where they left off by the tick's elapsed time. -/
theorem c8_pause_resume :
    (∀ (s : MCState) (inp : HostInputs) (r : RandDraws),
      (inp.mouseX ≠ s.lastMouseX ∨ inp.mouseY ≠ s.lastMouseY) →
      s.functionActive = true → s.functionPaused = false →
      0 < s.delaySeconds →
      (s.pluginMode = PluginMode.Manual ∨
        (s.pluginMode = PluginMode.Auto ∧
          CheckAutoConditions inp.onGround inp.groundSpeed inp.elevationM 0
            s.delaySeconds s.autoAltFt = true)) →
      FlightLoopCallbackStep s inp r = some { s with
        lastMouseX := inp.mouseX
        lastMouseY := inp.mouseY
        mouseIdleTime := 0
        functionPaused := true }) ∧
    (∀ (s : MCState) (inp : HostInputs) (r : RandDraws),
      inp.mouseX = s.lastMouseX → inp.mouseY = s.lastMouseY →
      s.functionActive = true → s.functionPaused = true →
      s.delaySeconds ≤ s.mouseIdleTime + inp.dt →
      s.inTransition = false → 0 < s.currentShotTime - inp.dt →
      (s.pluginMode = PluginMode.Manual ∨
        (s.pluginMode = PluginMode.Auto ∧
          CheckAutoConditions inp.onGround inp.groundSpeed inp.elevationM
            (s.mouseIdleTime + inp.dt) s.delaySeconds s.autoAltFt = true)) →
      FlightLoopCallbackStep s inp r = some { s with
        lastMouseX := inp.mouseX
        lastMouseY := inp.mouseY
        mouseIdleTime := s.mouseIdleTime + inp.dt
        functionPaused := false
        shotElapsedTime := s.shotElapsedTime + inp.dt
        currentShotTime := s.currentShotTime - inp.dt }) := by
  constructor
  · intro s inp r hmoved hact hpaused hdelay hmode
    have hm : flightLoopMouse s inp = { s with
        lastMouseX := inp.mouseX
        lastMouseY := inp.mouseY
        mouseIdleTime := 0
        functionPaused := true } := by
      rw [flightLoopMouse_eq]
      simp [hmoved, hact, hpaused]
    rw [FlightLoopCallbackStep, hm]
    have hauto : flightLoopAuto { s with
        lastMouseX := inp.mouseX
        lastMouseY := inp.mouseY
        mouseIdleTime := 0
        functionPaused := true } inp r = some { s with
        lastMouseX := inp.mouseX
        lastMouseY := inp.mouseY
        mouseIdleTime := 0
        functionPaused := true } := by
      rcases hmode with hmode | ⟨hmode, hcond⟩
      · simp [flightLoopAuto, hmode, hact, (not_le).mpr hdelay]
      · simp [flightLoopAuto, hmode, hcond, hact, (not_le).mpr hdelay]
    rw [hauto, Option.some_bind]
    simp [flightLoopTiming]
  · intro s inp r hmx hmy hact hpaused hidle htrans hpos hmode
    have hm : flightLoopMouse s inp = { s with
        lastMouseX := inp.mouseX
        lastMouseY := inp.mouseY
        mouseIdleTime := s.mouseIdleTime + inp.dt } := by
      rw [flightLoopMouse_eq]
      simp [hmx, hmy]
    rw [FlightLoopCallbackStep, hm]
    have hres : ResumeCameraControl { s with
        lastMouseX := inp.mouseX
        lastMouseY := inp.mouseY
        mouseIdleTime := s.mouseIdleTime + inp.dt } = { s with
        lastMouseX := inp.mouseX
        lastMouseY := inp.mouseY
        mouseIdleTime := s.mouseIdleTime + inp.dt
        functionPaused := false } := by
      simp [ResumeCameraControl, hact, hpaused]
    have hauto : flightLoopAuto { s with
        lastMouseX := inp.mouseX
        lastMouseY := inp.mouseY
        mouseIdleTime := s.mouseIdleTime + inp.dt } inp r = some { s with
        lastMouseX := inp.mouseX
        lastMouseY := inp.mouseY
        mouseIdleTime := s.mouseIdleTime + inp.dt
        functionPaused := false } := by
      rcases hmode with hmode | ⟨hmode, hcond⟩
      · rw [← hres]
        simp [flightLoopAuto, hmode, hact, hpaused, hidle]
      · rw [← hres]
        simp [flightLoopAuto, hmode, hcond, hact, hpaused, hidle]
    rw [hauto, Option.some_bind]
    simp only [flightLoopTiming]
    rw [if_pos ⟨hact, trivial⟩]
    rw [if_neg (show ¬ s.inTransition = true by simp [htrans])]
    rw [if_neg (by exact (not_le).mpr hpos)]

/-- C8 witness: the pause statement applied at a concrete tick with the
mouse moved, and the resume statement applied at a concrete paused state
whose idle time passes the delay. -/
theorem c8_witness :
    FlightLoopCallbackStep exState exInputsMoved exRand = some { exState with
      lastMouseX := exInputsMoved.mouseX
      lastMouseY := exInputsMoved.mouseY
      mouseIdleTime := 0
      functionPaused := true } ∧
    FlightLoopCallbackStep exPausedState exInputsStill exRand = some { exPausedState with
      lastMouseX := exInputsStill.mouseX
      lastMouseY := exInputsStill.mouseY
      mouseIdleTime := exPausedState.mouseIdleTime + exInputsStill.dt
      functionPaused := false
      shotElapsedTime := exPausedState.shotElapsedTime + exInputsStill.dt
      currentShotTime := exPausedState.currentShotTime - exInputsStill.dt } :=
  ⟨c8_pause_resume.1 exState exInputsMoved exRand
    (by simp [exInputsMoved, exInputs, exState]) rfl rfl (by norm_num [exState])
    (Or.inl rfl),
   c8_pause_resume.2 exPausedState exInputsStill exRand rfl rfl rfl rfl
    (by norm_num [exPausedState, exState, exInputsStill, exInputs]) rfl
    (by norm_num [exPausedState, exState, exInputsStill, exInputs]) (Or.inl rfl)⟩

/-! ## Helper lemmas for the path model -/

/-- The weak add loop changes its input by a whole number of turns. -/
theorem PathModel.angleLoopUpWeak_congr (a : ℝ) :
    ∃ k : ℤ, PathModel.angleLoopUpWeak a = a + 360 * k := by
  induction a using PathModel.angleLoopUpWeak.induct with
  | case1 x h ih =>
    obtain ⟨k, hk⟩ := ih
    exact ⟨k + 1, by rw [PathModel.angleLoopUpWeak, if_pos h, hk]; push_cast; ring⟩
  | case2 x h => exact ⟨0, by rw [PathModel.angleLoopUpWeak, if_neg h]; ring⟩

/-- normalizeAngleDeg changes its input by a whole number of turns. -/
theorem PathModel.normalizeAngleDeg_congr (a : ℝ) :
    ∃ k : ℤ, PathModel.normalizeAngleDeg a = a + 360 * k := by
  obtain ⟨k1, h1⟩ := angleLoopDown_congr a
  obtain ⟨k2, h2⟩ := PathModel.angleLoopUpWeak_congr (angleLoopDown a)
  exact ⟨k2 - k1, by rw [PathModel.normalizeAngleDeg, h2, h1]; push_cast; ring⟩

/-- easeInOutSine starts at 0. -/
theorem PathModel.easeInOutSine_zero : PathModel.easeInOutSine 0 = 0 := by
  simp [PathModel.easeInOutSine]

/-- easeInOutSine ends at 1. -/
theorem PathModel.easeInOutSine_one : PathModel.easeInOutSine 1 = 1 := by
  rw [PathModel.easeInOutSine, mul_one, Real.cos_pi]
  norm_num

/-- Sampling a keyframe pair at the left keyframe's own timestamp yields
that keyframe's pose exactly. -/
theorem PathModel.sampleKeyframePair_left (k1 k2 : PathModel.CameraKeyframe)
    (h : k1.time < k2.time) :
    PathModel.sampleKeyframePair k1 k2 k1.time = PathModel.keyframePose k1 := by
  have hdt : ¬ (k2.time - k1.time = 0) := by intro hc; linarith
  simp only [PathModel.sampleKeyframePair, hdt, if_false]
  rw [sub_self, zero_div]
  simp [PathModel.lerp, PathModel.lerpAngle, PathModel.keyframePose,
    PathModel.easeInOutSine_zero]

/-- Sampling a keyframe pair at the right keyframe's own timestamp yields
that keyframe's pose, the heading up to a whole number of turns. -/
theorem PathModel.sampleKeyframePair_right (k1 k2 : PathModel.CameraKeyframe)
    (h : k1.time < k2.time) :
    (PathModel.sampleKeyframePair k1 k2 k2.time).x = k2.x ∧
    (PathModel.sampleKeyframePair k1 k2 k2.time).y = k2.y ∧
    (PathModel.sampleKeyframePair k1 k2 k2.time).z = k2.z ∧
    (PathModel.sampleKeyframePair k1 k2 k2.time).pitch = k2.pitch ∧
    (PathModel.sampleKeyframePair k1 k2 k2.time).roll = k2.roll ∧
    (PathModel.sampleKeyframePair k1 k2 k2.time).zoom = k2.zoom ∧
    (PathModel.sampleKeyframePair k1 k2 k2.time).focalLength = k2.focalLength ∧
    (PathModel.sampleKeyframePair k1 k2 k2.time).aperture = k2.aperture ∧
    ∃ n : ℤ, (PathModel.sampleKeyframePair k1 k2 k2.time).heading =
      k2.heading + 360 * n := by
  have hdt : ¬ (k2.time - k1.time = 0) := by intro hc; linarith
  have hseg : (k2.time - k1.time) / (k2.time - k1.time) = 1 :=
    div_self (by intro hc; exact hdt hc)
  simp only [PathModel.sampleKeyframePair, hdt, if_false, hseg]
  rw [max_eq_left (by norm_num), min_eq_left (by norm_num)]
  rw [PathModel.easeInOutSine_one]
  obtain ⟨k, hk⟩ := PathModel.normalizeAngleDeg_congr (k2.heading - k1.heading)
  refine ⟨by simp [PathModel.lerp], by simp [PathModel.lerp],
    by simp [PathModel.lerp], by simp [PathModel.lerp],
    by simp [PathModel.lerp], by simp [PathModel.lerp],
    by simp [PathModel.lerp], by simp [PathModel.lerp], k, ?_⟩
  show PathModel.lerpAngle k1.heading k2.heading 1 = k2.heading + 360 * k
  rw [PathModel.lerpAngle, hk]
  ring

/-- In a strictly time-increasing keyframe list the head's timestamp is at
most the last one's. -/
theorem PathModel.chain_head_time_le :
    ∀ (tail : List PathModel.CameraKeyframe) (k kl : PathModel.CameraKeyframe),
      (k :: tail).Chain' (fun a b => a.time < b.time) →
      (k :: tail).getLast? = some kl → k.time ≤ kl.time := by
  intro tail
  induction tail with
  | nil =>
    intro k kl _ hlast
    simp at hlast
    rw [hlast]
  | cons k2 rest ih =>
    intro k kl hchain hlast
    have hck := List.chain'_cons.mp hchain
    have h2 := ih k2 kl hck.2 (by rw [← List.getLast?_cons_cons]; exact hlast)
    linarith [hck.1]

/-- Looking up the last keyframe's own timestamp clamps to the final
segment: the pair returned ends in the last keyframe, whose time its
partner strictly precedes. -/
theorem PathModel.findSegment_last :
    ∀ (rest : List PathModel.CameraKeyframe) (k1 k2 kl : PathModel.CameraKeyframe),
      (k1 :: k2 :: rest).Chain' (fun a b => a.time < b.time) →
      (k1 :: k2 :: rest).getLast? = some kl →
      ∃ kp, PathModel.findSegment (k1 :: k2 :: rest) kl.time = some (kp, kl) ∧
        kp.time < kl.time := by
  intro rest
  induction rest with
  | nil =>
    intro k1 k2 kl hchain hlast
    simp at hlast
    subst hlast
    have h12 := (List.chain'_cons.mp hchain).1
    refine ⟨k1, ?_, h12⟩
    simp only [PathModel.findSegment]
    rw [if_neg (by intro hc; exact absurd hc.2 (lt_irrefl _))]
  | cons r rest2 ih =>
    intro k1 k2 kl hchain hlast
    have hck := List.chain'_cons.mp hchain
    have hlast2 : (k2 :: r :: rest2).getLast? = some kl := by
      rw [← List.getLast?_cons_cons]; exact hlast
    obtain ⟨kp, hfs, hlt⟩ := ih k2 r kl hck.2 hlast2
    have h2le : k2.time ≤ kl.time :=
      PathModel.chain_head_time_le (r :: rest2) k2 kl hck.2 hlast2
    refine ⟨kp, ?_, hlt⟩
    rw [PathModel.findSegment]
    rw [if_neg (by intro hc; exact absurd hc.2 (not_lt.mpr h2le))]
    rw [hfs]

/-- totalDuration is the last keyframe's timestamp. -/
theorem PathModel.totalDuration_eq (p : PathModel.CustomCameraPath)
    (kl : PathModel.CameraKeyframe) (h : p.keyframes.getLast? = some kl) :
    PathModel.totalDuration p = kl.time := by
  simp [PathModel.totalDuration, h]

/-! ## C9 -/

/-- C9 counterexample: on the concrete two-keyframe path whose heading
turns from 0 to 350 degrees, sampling at the total duration yields the
heading -10 (the shortest-arc end value), not the last keyframe's stored
heading 350: the claim's "reproduces the last keyframe's pose exactly"
fails on the heading field. -/
theorem c9_counterexample :
    (PathModel.samplePath exPath 2).map PathModel.PathPose.heading = some (-10) ∧
    ((-10 : ℝ) ≠ 350) := by
  have hdown : angleLoopDown (350 : ℝ) = -10 := by
    rw [angleLoopDown]; norm_num
    rw [angleLoopDown]; norm_num
  have hup : PathModel.angleLoopUpWeak (-10 : ℝ) = -10 := by
    rw [PathModel.angleLoopUpWeak]; norm_num
  have hnorm : PathModel.normalizeAngleDeg (350 : ℝ) = -10 := by
    rw [PathModel.normalizeAngleDeg, hdown, hup]
  have hsine : PathModel.easeInOutSine 1 = 1 := PathModel.easeInOutSine_one
  constructor
  · norm_num [PathModel.samplePath, PathModel.findSegment, PathModel.sampleKeyframePair,
      PathModel.totalDuration, PathModel.lerpAngle, PathModel.lerp, exPath, exKf1, exKf2,
      max_def, min_def, hsine, hnorm]
  · norm_num

/-- C9 amended: on a custom path with at least two keyframes (first
keyframe at time 0, strictly increasing timestamps), sampling at time 0
reproduces the first keyframe's pose exactly; with looping disabled,
sampling at the total duration reproduces the last keyframe's position,
pitch, roll, zoom and lens parameters exactly and its heading up to a
whole number of 360 degree turns (the shortest-arc blend normalizes it);
on a looping path sampling past the total duration by any amount below one
full cycle matches sampling at that offset; and a path with fewer than two
keyframes yields no sample (playback is a no-op). -/
theorem c9_path_sampling_amended :
    (∀ (p : PathModel.CustomCameraPath) (k1 k2 : PathModel.CameraKeyframe)
        (rest : List PathModel.CameraKeyframe),
      p.keyframes = k1 :: k2 :: rest → k1.time = 0 → 0 < k2.time →
      PathModel.samplePath p 0 = some (PathModel.keyframePose k1)) ∧
    (∀ (p : PathModel.CustomCameraPath) (k1 k2 : PathModel.CameraKeyframe)
        (rest : List PathModel.CameraKeyframe) (kl : PathModel.CameraKeyframe),
      p.looping = false → p.keyframes = k1 :: k2 :: rest →
      p.keyframes.Chain' (fun a b => a.time < b.time) →
      p.keyframes.getLast? = some kl →
      ∃ pose, PathModel.samplePath p (PathModel.totalDuration p) = some pose ∧
        pose.x = kl.x ∧ pose.y = kl.y ∧ pose.z = kl.z ∧ pose.pitch = kl.pitch ∧
        pose.roll = kl.roll ∧ pose.zoom = kl.zoom ∧
        pose.focalLength = kl.focalLength ∧ pose.aperture = kl.aperture ∧
        ∃ n : ℤ, pose.heading = kl.heading + 360 * n) ∧
    (∀ (p : PathModel.CustomCameraPath) (eps : ℝ),
      p.looping = true → 0 ≤ eps → eps < PathModel.totalDuration p →
      PathModel.samplePath p (PathModel.totalDuration p + eps) =
        PathModel.samplePath p eps) ∧
    (∀ (p : PathModel.CustomCameraPath) (t : ℝ),
      p.keyframes.length < 2 → PathModel.samplePath p t = none) := by
  refine ⟨?_, ?_, ?_, ?_⟩
  · intro p k1 k2 rest hk h0 h2
    have htw : (if p.looping = true ∧ 0 < PathModel.totalDuration p then
        (0 : ℝ) - PathModel.totalDuration p * ⌊(0 : ℝ) / PathModel.totalDuration p⌋
        else 0) = 0 := by
      split_ifs <;> simp
    simp only [PathModel.samplePath, htw, hk]
    rw [PathModel.findSegment]
    rw [if_pos ⟨by rw [h0], h2⟩]
    simp only [Option.map_some']
    rw [show (0 : ℝ) = k1.time from h0.symm]
    rw [PathModel.sampleKeyframePair_left k1 k2 (by rw [h0]; exact h2)]
  · intro p k1 k2 rest kl hloop hk hchain hlast
    rw [PathModel.totalDuration_eq p kl hlast]
    rw [hk] at hchain hlast
    obtain ⟨kp, hfs, hlt⟩ := PathModel.findSegment_last rest k1 k2 kl hchain hlast
    simp only [PathModel.samplePath, hloop, Bool.false_eq_true, false_and, if_false, hk]
    rw [hfs]
    simp only [Option.map_some']
    obtain ⟨hx, hy, hz, hpitch, hroll, hzoom, hfl, hap, n, hheading⟩ :=
      PathModel.sampleKeyframePair_right kp kl hlt
    exact ⟨_, rfl, hx, hy, hz, hpitch, hroll, hzoom, hfl, hap, n, hheading⟩
  · intro p eps hloop h0 hlt
    have hT : 0 < PathModel.totalDuration p := lt_of_le_of_lt h0 hlt
    have hf1 : ⌊(PathModel.totalDuration p + eps) / PathModel.totalDuration p⌋ = 1 := by
      rw [Int.floor_eq_iff]
      constructor
      · push_cast
        rw [le_div_iff₀ hT]
        linarith
      · push_cast
        rw [div_lt_iff₀ hT]
        linarith
    have hf2 : ⌊eps / PathModel.totalDuration p⌋ = 0 := by
      rw [Int.floor_eq_zero_iff]
      constructor
      · exact div_nonneg h0 hT.le
      · exact (div_lt_one hT).mpr hlt
    have hw1 : PathModel.totalDuration p + eps -
        PathModel.totalDuration p * ⌊(PathModel.totalDuration p + eps) /
          PathModel.totalDuration p⌋ = eps := by
      rw [hf1]
      push_cast
      ring
    have hw2 : eps - PathModel.totalDuration p * ⌊eps / PathModel.totalDuration p⌋ =
        eps := by
      rw [hf2]
      push_cast
      ring
    simp only [PathModel.samplePath, hloop, hT, and_self, eq_self_iff_true, true_and,
      if_true, if_pos, hw1, hw2]
  · intro p t hlen
    rcases hk : p.keyframes with _ | ⟨a, tail⟩
    · simp [PathModel.samplePath, hk, PathModel.findSegment]
    · rcases tail with _ | ⟨b, tail2⟩
      · simp [PathModel.samplePath, hk, PathModel.findSegment]
      · rw [hk] at hlen
        simp at hlen
        omega

/-- C9 witness: the looping statement applied at the concrete two-second
looping path with an offset of one second. -/
theorem c9_witness :
    exPathLoop.looping = true ∧ (0 : ℝ) ≤ 1 ∧
    (1 : ℝ) < PathModel.totalDuration exPathLoop ∧
    PathModel.samplePath exPathLoop (PathModel.totalDuration exPathLoop + 1) =
      PathModel.samplePath exPathLoop 1 :=
  ⟨rfl, by norm_num,
   by norm_num [PathModel.totalDuration, exPathLoop, exKf2],
   c9_path_sampling_amended.2.2.1 exPathLoop 1 rfl (by norm_num)
     (by norm_num [PathModel.totalDuration, exPathLoop, exKf2])⟩

/-- C10 witness: the never-reaches-full-drift statement applied at base 0
and drift amount 1. -/
theorem c10_witness : (1 : ℚ) ≠ 0 ∧ LinearDrift 0 1 1 ≠ 0 + 1 :=
  ⟨by norm_num, c10_linearDrift_profile.2.2.2.2 0 1 (by norm_num)⟩
